import Mathlib

/-!
Verification of the ONLYOFFICE document-session protocol implemented in
`src/backend/src/onlyoffice/routes.js` (config endpoint, save callback
webhook, pdf-to-docx conversion poller, and the HS256 JWT helpers), and of
the frontend page `src/frontend/src/app/onlyoffice/[docId]/page.js` that
consumes the config endpoint.

Strings are embedded as `List Char`; bytes as `List Nat`.  The HMAC-SHA256
primitive (node's `crypto.createHmac`) is an external library call and is
treated as an opaque pure function `List Nat → List Nat → List Nat`
(secret bytes, data bytes ↦ digest bytes); every theorem is parametric in
it.  Firestore (`docs` collection) and the storage bucket are embedded as
association lists, with `set(..., { merge: true })` modelled as a merge
that only touches the fields the code names.
-/

namespace PdfEditor

abbrev Str := List Char

/-- UTF-8 bytes of an ASCII string (every string the code feeds to the
HMAC or to base64 is ASCII). -/
def strBytes (s : Str) : List Nat := s.map Char.toNat

/-- JS `String.prototype.split(sep)` for a one-character separator. -/
def splitOnChar (sep : Char) : Str → List Str
  | [] => [[]]
  | c :: rest =>
    let gs := splitOnChar sep rest
    if c = sep then [] :: gs
    else
      match gs with
      | [] => [[c]]
      | g :: gs' => (c :: g) :: gs'

/-- JS truthiness of an optional string field (`undefined` and `""` are
falsy). -/
def truthyStr : Option Str → Bool
  | some (_ :: _) => true
  | _ => false

/-- JS truthiness of an optional numeric field (`undefined` and `0` are
falsy). -/
def truthyInt : Option Int → Bool
  | some e => e != 0
  | none => false

/-- Decimal digit character, as produced by JS number-to-string. -/
def digitChar (n : Nat) : Char := Char.ofNat (48 + n % 10)

/-- Fueled decimal rendering; fuel `n + 1` always suffices. -/
def natToStrAux : Nat → Nat → Str
  | 0, _ => []
  | fuel + 1, n =>
    if n < 10 then [digitChar n]
    else natToStrAux fuel (n / 10) ++ [digitChar (n % 10)]

/-- JS template interpolation of a non-negative number (`Date.now()`). -/
def natToStr (n : Nat) : Str := natToStrAux (n + 1) n

/-! ## base64url without padding

`Buffer.toString("base64")` followed by
`.replace(/=/g,"").replace(/\+/g,"-").replace(/\//g,"_")`, as in the
`b64` helper of `signJwt`: standard base64 with `+`/`/` swapped for
`-`/`_` and the trailing `=` padding removed. -/

/-- The base64url alphabet, indexed by a 6-bit value. -/
def b64CharAux (m : Nat) : Char :=
  if m < 26 then Char.ofNat (65 + m)
  else if m < 52 then Char.ofNat (97 + (m - 26))
  else if m < 62 then Char.ofNat (48 + (m - 52))
  else if m = 62 then Char.ofNat 45
  else Char.ofNat 95

def b64Char (n : Nat) : Char := b64CharAux (n % 64)

/-- base64url (no padding) of a byte list, three input bytes per four
output characters, with the one- and two-byte tails that `=`-stripping
leaves behind. -/
def b64urlEncode : List Nat → Str
  | [] => []
  | [a] => [b64Char (a / 4), b64Char (a % 4 * 16)]
  | [a, b] => [b64Char (a / 4), b64Char (a % 4 * 16 + b / 16), b64Char (b % 16 * 4)]
  | a :: b :: c :: rest =>
    b64Char (a / 4) :: b64Char (a % 4 * 16 + b / 16) ::
      b64Char (b % 16 * 4 + c / 64) :: b64Char (c % 64) :: b64urlEncode rest

/-! ## JWT helpers (`signJwt`, `verifyOnlyOfficeJwt`) -/

/-- `JSON.stringify({ alg: "HS256", typ: "JWT" })`. -/
def headerJson : Str :=
  ("\x7b" ++ "\"alg\":\"HS256\",\"typ\":\"JWT\"" ++ "\x7d").toList

def headerBytes : List Nat := strBytes headerJson

/-- `signJwt(payloadObj, secret)`: base64url the constant header and the
serialized payload, join with dots, HMAC-SHA256 the joined data with the
secret, and append the base64url signature.  `payloadBytes` is the UTF-8
of `JSON.stringify(payloadObj)`; `hmac` is the opaque HMAC-SHA256. -/
def signJwt (hmac : List Nat → List Nat → List Nat)
    (payloadBytes secretBytes : List Nat) : Str :=
  let head := b64urlEncode headerBytes
  let body := b64urlEncode payloadBytes
  let data := head ++ '.' :: body
  let sig := b64urlEncode (hmac secretBytes (strBytes data))
  data ++ '.' :: sig

def bearerText : Str := ("Bearer ").toList

/-- `verifyOnlyOfficeJwt(req, secret)` applied to the request's
`Authorization` header value (`req.headers.authorization || ""`): strip
the `Bearer ` text, split the token on dots, recompute the HMAC over
`head.body` and compare with the carried signature. -/
def verifyOnlyOfficeJwt (hmac : List Nat → List Nat → List Nat)
    (authHeader : Str) (secretBytes : List Nat) : Bool :=
  let token := if bearerText.isPrefixOf authHeader then authHeader.drop 7 else []
  if token.isEmpty then false
  else
    let parts := splitOnChar '.' token
    let h := parts.getD 0 []
    let p := parts.getD 1 []
    let s := parts.getD 2 []
    if h.isEmpty || p.isEmpty || s.isEmpty then false
    else
      let expected := b64urlEncode (hmac secretBytes (strBytes (h ++ '.' :: p)))
      expected == s

/-! ## Data model: Firestore `docs` records and the storage bucket -/

/-- One document of the Firestore `docs` collection, restricted to the
fields the backend and the onlyoffice frontend page touch.  `docxPath`
and `docxUrl` live under the `onlyoffice` map in the source; `version` is
a field the spec postulates — no code in the repository ever writes it,
so the merge operations below leave it alone, exactly as a Firestore
merge leaves alone every field it does not name. -/
structure DocRecord where
  ownerUid : Str
  title : Option Str
  docxPath : Option Str
  docxUrl : Option Str
  sourcePdfUrl : Option Str
  updatedAt : Nat
  version : Option Nat
  deriving DecidableEq, Repr

/-- Backend-visible state: the `docs` collection and the storage bucket,
both as association lists keyed by document id / object path. -/
structure World where
  records : List (Str × DocRecord)
  blobs : List (Str × List Nat)
  deriving DecidableEq, Repr

def lookupRec : List (Str × DocRecord) → Str → Option DocRecord
  | [], _ => none
  | (k0, r0) :: rest, k => if k0 = k then some r0 else lookupRec rest k

def upsertRec : List (Str × DocRecord) → Str → DocRecord → List (Str × DocRecord)
  | [], k, r => [(k, r)]
  | (k0, r0) :: rest, k, r =>
    if k0 = k then (k0, r) :: rest else (k0, r0) :: upsertRec rest k r

def lookupBlob : List (Str × List Nat) → Str → Option (List Nat)
  | [], _ => none
  | (k0, b0) :: rest, k => if k0 = k then some b0 else lookupBlob rest k

def upsertBlob : List (Str × List Nat) → Str → List Nat → List (Str × List Nat)
  | [], k, b => [(k, b)]
  | (k0, b0) :: rest, k, b =>
    if k0 = k then (k0, b) :: rest else (k0, b0) :: upsertBlob rest k b

/-- The fixed per-document storage path `onlyoffice/{docId}/latest.docx`. -/
def latestPath (docId : Str) : Str :=
  ("onlyoffice/").toList ++ docId ++ ("/latest.docx").toList

/-- `set(..., { merge: true })` as issued by the save callback: overwrite
`onlyoffice.docxPath`, `onlyoffice.docxUrl` and the timestamps, keep every
other field; create the record when absent. -/
def mergeCallbackFields (old : Option DocRecord) (path url : Str)
    (now : Nat) : DocRecord :=
  match old with
  | some r => { r with docxPath := some path, docxUrl := some url, updatedAt := now }
  | none => ⟨[], none, some path, some url, none, now, none⟩

/-- `set(..., { merge: true })` as issued by the conversion endpoint: like
the callback merge but also records `onlyoffice.sourcePdfUrl`. -/
def mergeConvFields (old : Option DocRecord) (path url pdfUrl : Str)
    (now : Nat) : DocRecord :=
  match old with
  | some r =>
    { r with docxPath := some path, docxUrl := some url,
             sourcePdfUrl := some pdfUrl, updatedAt := now }
  | none => ⟨[], none, some path, some url, some pdfUrl, now, none⟩

/-! ## The save callback handler (`POST /onlyoffice/callback`) -/

/-- HTTP response of a route handler: status and the single integer
`error` field of the JSON body. -/
structure HttpResp where
  status : Nat
  errCode : Nat
  deriving DecidableEq, Repr

/-- The JSON body ONLYOFFICE posts to the webhook, restricted to the
fields the handler reads. -/
structure CallbackBody where
  status : Option Int
  url : Option Str
  key : Option Str
  deriving DecidableEq, Repr

/-- The inbound webhook request: `Authorization` header plus body. -/
structure CallbackRequest where
  authorization : Option Str
  body : CallbackBody
  deriving DecidableEq, Repr

/-- The body of the callback route after the auth gate: act only on
status 2 (MustSave) and 6 (MustForceSave); require truthy `url` and
`key`; take the document id as the text before the first `:` of the key;
download, write the blob at the fixed path, sign a read URL expiring in
seven days, and merge the record.  A failed download throws into the
route's catch, which answers 500 `{error: 1}`. -/
def callbackSave (fetchFn : Str → Option (List Nat))
    (signUrl : Str → Nat → Str) (now : Nat)
    (body : CallbackBody) (w : World) : HttpResp × World :=
  if body.status = some 2 ∨ body.status = some 6 then
    if truthyStr body.url && truthyStr body.key then
      let url := body.url.getD []
      let key := body.key.getD []
      let docId := (splitOnChar ':' key).getD 0 []
      match fetchFn url with
      | none => (⟨500, 1⟩, w)
      | some buf =>
        let path := latestPath docId
        let w1 : World := { w with blobs := upsertBlob w.blobs path buf }
        let su := signUrl path (now + 604800000)
        let newRec := mergeCallbackFields (lookupRec w1.records docId) path su now
        (⟨200, 0⟩, { w1 with records := upsertRec w1.records docId newRec })
    else (⟨200, 0⟩, w)
  else (⟨200, 0⟩, w)

/-- `POST /onlyoffice/callback`: when `ONLYOFFICE_JWT_SECRET` is set,
verify the bearer JWT of the `Authorization` header (missing header reads
as `""`) and answer 403 `{error: 1}` on failure; otherwise run the save
body. -/
def handleCallback (hmac : List Nat → List Nat → List Nat)
    (secret : Option (List Nat)) (fetchFn : Str → Option (List Nat))
    (signUrl : Str → Nat → Str) (now : Nat)
    (req : CallbackRequest) (w : World) : HttpResp × World :=
  match secret with
  | some s =>
    if verifyOnlyOfficeJwt hmac (req.authorization.getD []) s then
      callbackSave fetchFn signUrl now req.body w
    else (⟨403, 1⟩, w)
  | none => callbackSave fetchFn signUrl now req.body w

/-- Sequential processing of a list of callback requests, each with its
own arrival time. -/
def runCallbacks (hmac : List Nat → List Nat → List Nat)
    (secret : Option (List Nat)) (fetchFn : Str → Option (List Nat))
    (signUrl : Str → Nat → Str) :
    List (Nat × CallbackRequest) → World → World
  | [], w => w
  | (now, req) :: rest, w =>
    runCallbacks hmac secret fetchFn signUrl rest
      (handleCallback hmac secret fetchFn signUrl now req w).2

/-! ## The config endpoint (`POST /onlyoffice/config`) -/

/-- Request body of `POST /onlyoffice/config`. -/
structure ConfigRequest where
  docId : Option Str
  fileUrl : Option Str
  fileType : Option Str
  title : Option Str
  userId : Option Str
  userName : Option Str
  deriving DecidableEq, Repr

/-- The parts of the DocEditor config object the handler fills in. -/
structure OOConfig where
  key : Str
  fileType : Str
  title : Str
  url : Str
  callbackUrl : Str
  userId : Str
  userName : Str
  deriving DecidableEq, Repr

inductive ConfigResult where
  /-- 400 `docId, fileUrl, fileType required`. -/
  | badRequest
  /-- 200 with the config, and the JWT token when a secret is set. -/
  | ok (cfg : OOConfig) (token : Option Str)
  deriving DecidableEq, Repr

/-- `POST /onlyoffice/config`: require truthy `docId`, `fileUrl`,
`fileType`; mint the session key `` `${docId}:${Date.now()}` ``; build the
config with the fixed callback URL and defaulted title and user identity;
when a secret is set, sign `{ payload: config }` (serialized by the
opaque `serialize`) and attach the token.  The handler consults no
document record and takes no `World`. -/
def buildConfig (serialize : OOConfig → List Nat)
    (hmac : List Nat → List Nat → List Nat) (secret : Option (List Nat))
    (publicBaseUrl : Str) (req : ConfigRequest) (now : Nat) : ConfigResult :=
  if truthyStr req.docId && truthyStr req.fileUrl && truthyStr req.fileType then
    let docId := req.docId.getD []
    let key := docId ++ ':' :: natToStr now
    let cfg : OOConfig :=
      ⟨key, req.fileType.getD [],
       (if truthyStr req.title then req.title.getD [] else ("Document").toList),
       req.fileUrl.getD [],
       publicBaseUrl ++ ("/onlyoffice/callback").toList,
       (if truthyStr req.userId then req.userId.getD [] else ("1").toList),
       (if truthyStr req.userName then req.userName.getD [] else ("User").toList)⟩
    match secret with
    | some s => ConfigResult.ok cfg (some (signJwt hmac (serialize cfg) s))
    | none => ConfigResult.ok cfg none
  else ConfigResult.badRequest

/-- Outcome of the frontend onlyoffice page load
(`src/frontend/src/app/onlyoffice/[docId]/page.js`). -/
inductive PageOutcome where
  /-- `Document not found.` -/
  | notFound
  /-- `Not allowed.` -/
  | notAllowed
  /-- `This document has no DOCX yet. ...` -/
  | noDocx
  /-- `Failed to get ONLYOFFICE config from backend.` -/
  | configFailed
  /-- Editor mounted with the fetched config. -/
  | editor (cfg : OOConfig) (token : Option Str)
  deriving DecidableEq, Repr

/-- The page's load effect: read the Firestore record for `docId`
(absent ⇒ not-found error), check ownership, require a truthy
`onlyoffice.docxUrl` (else the no-DOCX error), then request the config
from the backend with `fileType: "docx"` and the record's title. -/
def onlyOfficePageLoad (serialize : OOConfig → List Nat)
    (hmac : List Nat → List Nat → List Nat) (secret : Option (List Nat))
    (publicBaseUrl : Str) (store : List (Str × DocRecord))
    (docId uid email : Str) (now : Nat) : PageOutcome :=
  match lookupRec store docId with
  | none => PageOutcome.notFound
  | some data =>
    if data.ownerUid ≠ uid then PageOutcome.notAllowed
    else if truthyStr data.docxUrl = false then PageOutcome.noDocx
    else
      let req : ConfigRequest :=
        ⟨some docId, data.docxUrl, some (("docx").toList),
         some (if truthyStr data.title then data.title.getD []
               else ("Document").toList),
         some uid,
         some (if email ≠ [] then email else ("User").toList)⟩
      match buildConfig serialize hmac secret publicBaseUrl req now with
      | ConfigResult.badRequest => PageOutcome.configFailed
      | ConfigResult.ok cfg tok => PageOutcome.editor cfg tok

/-! ## The conversion poller (`POST /onlyoffice/convert/pdf-to-docx`) -/

/-- One response of the converter endpoint: transport status (`r.ok`,
`r.status`) and the decoded JSON fields the loop reads. -/
structure ConvResp where
  ok : Bool
  httpStatus : Nat
  errCode : Option Int
  endConvert : Bool
  fileUrl : Option Str
  deriving DecidableEq, Repr

/-- How the polling loop exits. -/
inductive PollExit where
  | httpError (st : Nat)
  | convError (code : Int)
  | done (r : ConvResp)
  | exhausted
  deriving DecidableEq, Repr

/-- The `for (let i = 0; i < 40; i++)` loop, started at attempt `i` with
the given remaining budget; `rs` gives the remote's response to the
`n`-th poll.  Returns the exit and the number of polls performed. -/
def pollAux (rs : Nat → ConvResp) : Nat → Nat → PollExit × Nat
  | _, 0 => (PollExit.exhausted, 0)
  | i, fuel + 1 =>
    let r := rs i
    if r.ok = false then (PollExit.httpError r.httpStatus, 1)
    else if truthyInt r.errCode then (PollExit.convError (r.errCode.getD 0), 1)
    else if r.endConvert then (PollExit.done r, 1)
    else
      let rest := pollAux rs (i + 1) fuel
      (rest.1, rest.2 + 1)

/-- The loop bound of the source (`i < 40`). -/
def attemptBudget : Nat := 40

inductive ConvResult where
  /-- 400 `docId and pdfUrl required`. -/
  | badRequest
  /-- 500 `Missing ONLYOFFICE_URL env var`. -/
  | missingEnv
  /-- 500 `` `Converter HTTP ${r.status}` ``. -/
  | httpError (st : Nat)
  /-- 500 `` `Conversion error code: ${data.error}` ``. -/
  | convError (code : Int)
  /-- 504 `Conversion timeout (try again)`. -/
  | timeout
  /-- 500 `Failed to download converted DOCX`. -/
  | downloadFailed
  /-- 200 `{ ok: true, docxPath, docxUrl }`. -/
  | okRes (path url : Str)
  deriving DecidableEq, Repr

/-- `POST /onlyoffice/convert/pdf-to-docx`: require truthy `docId` and
`pdfUrl` and a configured `ONLYOFFICE_URL`; poll the converter up to
`attemptBudget` times; a missing or falsy `fileUrl` at the end (budget
exhausted, or `endConvert` without a URL) is the 504 timeout; on success
download the result, write the blob at the fixed path, sign a read URL
and merge the record. -/
def convertPdfToDocx (rs : Nat → ConvResp) (fetchFn : Str → Option (List Nat))
    (signUrl : Str → Nat → Str) (onlyofficeUrl : Option Str)
    (docId pdfUrl : Option Str) (now : Nat) (w : World) : ConvResult × World :=
  if truthyStr docId && truthyStr pdfUrl then
    match onlyofficeUrl with
    | none => (ConvResult.missingEnv, w)
    | some _ =>
      match pollAux rs 0 attemptBudget with
      | (PollExit.httpError st, _) => (ConvResult.httpError st, w)
      | (PollExit.convError c, _) => (ConvResult.convError c, w)
      | (PollExit.exhausted, _) => (ConvResult.timeout, w)
      | (PollExit.done r, _) =>
        if truthyStr r.fileUrl = false then (ConvResult.timeout, w)
        else
          let u := r.fileUrl.getD []
          match fetchFn u with
          | none => (ConvResult.downloadFailed, w)
          | some buf =>
            let d := docId.getD []
            let path := latestPath d
            let w1 : World := { w with blobs := upsertBlob w.blobs path buf }
            let su := signUrl path (now + 604800000)
            let newRec :=
              mergeConvFields (lookupRec w1.records d) path su (pdfUrl.getD []) now
            (ConvResult.okRes path su, { w1 with records := upsertRec w1.records d newRec })
  else (ConvResult.badRequest, w)

/-! ## Helper lemmas -/

theorem b64CharAux_ne_dot : ∀ m, m < 64 → b64CharAux m ≠ '.' := by decide

theorem b64Char_ne_dot (n : Nat) : b64Char n ≠ '.' :=
  b64CharAux_ne_dot (n % 64) (Nat.mod_lt _ (by omega))

theorem b64urlEncode_dotFree : ∀ bs : List Nat, '.' ∉ b64urlEncode bs := by
  intro bs
  induction bs using b64urlEncode.induct with
  | case1 => simp [b64urlEncode]
  | case2 a =>
    simp only [b64urlEncode, List.mem_cons, List.not_mem_nil, or_false]
    exact fun h => h.elim (fun h1 => b64Char_ne_dot _ h1.symm)
      (fun h2 => b64Char_ne_dot _ h2.symm)
  | case3 a b =>
    simp only [b64urlEncode, List.mem_cons, List.not_mem_nil, or_false]
    intro h
    rcases h with h | h | h
    · exact b64Char_ne_dot _ h.symm
    · exact b64Char_ne_dot _ h.symm
    · exact b64Char_ne_dot _ h.symm
  | case4 a b c rest ih =>
    simp only [b64urlEncode, List.mem_cons]
    intro h
    rcases h with h | h | h | h | h
    · exact b64Char_ne_dot _ h.symm
    · exact b64Char_ne_dot _ h.symm
    · exact b64Char_ne_dot _ h.symm
    · exact b64Char_ne_dot _ h.symm
    · exact ih h

theorem b64urlEncode_ne_nil : ∀ bs : List Nat, bs ≠ [] → b64urlEncode bs ≠ [] := by
  intro bs h
  match bs with
  | [] => exact absurd rfl h
  | [a] => simp [b64urlEncode]
  | [a, b] => simp [b64urlEncode]
  | a :: b :: c :: rest => simp [b64urlEncode]

theorem splitOnChar_sep_append (sep : Char) (x r : Str) (h : sep ∉ x) :
    splitOnChar sep (x ++ sep :: r) = x :: splitOnChar sep r := by
  induction x with
  | nil => simp [splitOnChar]
  | cons c cs ih =>
    have hc : c ≠ sep := fun hc => h (hc ▸ List.mem_cons_self c cs)
    have hcs : sep ∉ cs := fun hm => h (List.mem_cons_of_mem c hm)
    simp only [List.cons_append, splitOnChar, if_neg hc]
    rw [List.append_eq, ih hcs]

theorem splitOnChar_no_sep (sep : Char) (x : Str) (h : sep ∉ x) :
    splitOnChar sep x = [x] := by
  induction x with
  | nil => rfl
  | cons c cs ih =>
    have hc : c ≠ sep := fun hc => h (hc ▸ List.mem_cons_self c cs)
    have hcs : sep ∉ cs := fun hm => h (List.mem_cons_of_mem c hm)
    simp only [splitOnChar, if_neg hc, ih hcs]

/-- Splitting a well-formed three-part token on dots recovers its parts. -/
theorem splitOnChar_token (h p s : Str) (hh : '.' ∉ h) (hp : '.' ∉ p)
    (hs : '.' ∉ s) :
    splitOnChar '.' (h ++ '.' :: (p ++ '.' :: s)) = [h, p, s] := by
  rw [splitOnChar_sep_append _ _ _ hh, splitOnChar_sep_append _ _ _ hp,
    splitOnChar_no_sep _ _ hs]

/-- Core round-trip fact shared by the webhook-auth theorems: a token
minted by `signJwt` and presented as a bearer credential passes
`verifyOnlyOfficeJwt` with the same secret, for any HMAC primitive that
returns a non-empty digest (HMAC-SHA256 always returns 32 bytes) and any
non-empty serialized payload. -/
theorem verify_sign_aux (hmac : List Nat → List Nat → List Nat)
    (payloadBytes secretBytes : List Nat) (hp : payloadBytes ≠ [])
    (hh : ∀ d, hmac secretBytes d ≠ []) :
    verifyOnlyOfficeJwt hmac (bearerText ++ signJwt hmac payloadBytes secretBytes)
      secretBytes = true := by
  have hpre : bearerText.isPrefixOf
      (bearerText ++ signJwt hmac payloadBytes secretBytes) = true := by
    rw [List.isPrefixOf_iff_prefix]; exact List.prefix_append _ _
  have hdrop : (bearerText ++ signJwt hmac payloadBytes secretBytes).drop 7 =
      signJwt hmac payloadBytes secretBytes := List.drop_left bearerText _
  set head := b64urlEncode headerBytes with hhead
  set body := b64urlEncode payloadBytes with hbody
  set sig := b64urlEncode
    (hmac secretBytes (strBytes (head ++ '.' :: body))) with hsig
  have htok : signJwt hmac payloadBytes secretBytes =
      head ++ '.' :: (body ++ '.' :: sig) := by
    simp [signJwt, List.append_assoc]
  have hheadne : head ≠ [] := b64urlEncode_ne_nil _ (by decide)
  have hbodyne : body ≠ [] := b64urlEncode_ne_nil _ hp
  have hsigne : sig ≠ [] := b64urlEncode_ne_nil _ (hh _)
  have hsplit : splitOnChar '.' (signJwt hmac payloadBytes secretBytes) =
      [head, body, sig] := by
    rw [htok]
    exact splitOnChar_token _ _ _ (b64urlEncode_dotFree _)
      (b64urlEncode_dotFree _) (b64urlEncode_dotFree _)
  have htokne : signJwt hmac payloadBytes secretBytes ≠ [] := by
    rw [htok]
    rcases List.exists_cons_of_ne_nil hheadne with ⟨c, cs, hc⟩
    simp [hc]
  unfold verifyOnlyOfficeJwt
  rw [hpre]
  simp only [if_true, hdrop, hsplit]
  have h1 : [head, body, sig].getD 0 [] = head := rfl
  have h2 : [head, body, sig].getD 1 [] = body := rfl
  have h3 : [head, body, sig].getD 2 [] = sig := rfl
  rw [h1, h2, h3, ← hsig]
  obtain ⟨c1, t1, he1⟩ := List.exists_cons_of_ne_nil hheadne
  obtain ⟨c2, t2, he2⟩ := List.exists_cons_of_ne_nil hbodyne
  obtain ⟨c3, t3, he3⟩ := List.exists_cons_of_ne_nil hsigne
  rw [htok, he1, he2, he3]
  simp

theorem lookupRec_upsertRec (recs : List (Str × DocRecord)) (k k' : Str)
    (r : DocRecord) :
    lookupRec (upsertRec recs k r) k' =
      if k = k' then some r else lookupRec recs k' := by
  induction recs with
  | nil => simp [upsertRec, lookupRec]
  | cons p rest ih =>
    obtain ⟨k0, r0⟩ := p
    by_cases h0 : k0 = k
    · subst h0
      by_cases hk : k0 = k'
      · subst hk; simp [upsertRec, lookupRec]
      · simp [upsertRec, lookupRec, hk]
    · by_cases hk : k0 = k'
      · subst hk
        have hne : ¬ k = k0 := fun h => h0 h.symm
        simp [upsertRec, lookupRec, h0, hne]
      · simp [upsertRec, lookupRec, h0, hk, ih]

theorem lookupBlob_upsertBlob_self (bs : List (Str × List Nat)) (k : Str)
    (b : List Nat) : lookupBlob (upsertBlob bs k b) k = some b := by
  induction bs with
  | nil => simp [upsertBlob, lookupBlob]
  | cons p rest ih =>
    obtain ⟨k0, b0⟩ := p
    by_cases h0 : k0 = k
    · subst h0; simp [upsertBlob, lookupBlob]
    · simp [upsertBlob, lookupBlob, h0, ih]

/-- In every branch of the post-auth callback body the HTTP status is 200
or 500, never the 403 of the auth gate. -/
theorem callbackSave_status_ne_403 (fetchFn : Str → Option (List Nat))
    (signUrl : Str → Nat → Str) (now : Nat) (body : CallbackBody) (w : World) :
    (callbackSave fetchFn signUrl now body w).1.status ≠ 403 := by
  unfold callbackSave
  by_cases hs : body.status = some 2 ∨ body.status = some 6
  · rw [if_pos hs]
    by_cases ht : (truthyStr body.url && truthyStr body.key) = true
    · rw [if_pos ht]
      cases hf : fetchFn (body.url.getD []) <;> simp [hf]
    · rw [if_neg ht]; simp
  · rw [if_neg hs]; simp

/-! ## Claim theorems -/

/-- C9: round-trip of the webhook-auth helpers — a request whose
`Authorization` header is `Bearer ` followed by `signJwt(p, s)` is
accepted by `verifyOnlyOfficeJwt` with the same secret `s`, for every
serialized payload and every HMAC primitive returning non-empty
digests. -/
theorem signJwt_verify_roundTrip (hmac : List Nat → List Nat → List Nat)
    (payloadBytes secretBytes : List Nat) (hp : payloadBytes ≠ [])
    (hh : ∀ d, hmac secretBytes d ≠ []) :
    verifyOnlyOfficeJwt hmac
      (bearerText ++ signJwt hmac payloadBytes secretBytes) secretBytes = true :=
  verify_sign_aux hmac payloadBytes secretBytes hp hh

/-- C9 witness: the round-trip at the serialized payload `{}` and a
concrete digest function. -/
theorem signJwt_verify_roundTrip_witness :
    ([123, 125] : List Nat) ≠ [] ∧
    verifyOnlyOfficeJwt (fun _ _ => [1])
      (bearerText ++ signJwt (fun _ _ => [1]) [123, 125] [7]) [7] = true :=
  ⟨by decide,
   signJwt_verify_roundTrip (fun _ _ => [1]) [123, 125] [7] (by decide)
     (fun _ => List.cons_ne_nil 1 [])⟩

/-- C4: when a shared secret is configured and the callback request's
`Authorization` header is missing, malformed, or carries a token whose
HMAC signature does not verify (all the cases in which
`verifyOnlyOfficeJwt` answers `false`), the handler responds 403
`{error: 1}` and performs no blob-store write and no record mutation
(the world is returned unchanged). -/
theorem callback_unauthorized_rejected
    (hmac : List Nat → List Nat → List Nat) (s : List Nat)
    (fetchFn : Str → Option (List Nat)) (signUrl : Str → Nat → Str)
    (now : Nat) (req : CallbackRequest) (w : World)
    (hauth : verifyOnlyOfficeJwt hmac (req.authorization.getD []) s = false) :
    handleCallback hmac (some s) fetchFn signUrl now req w = (⟨403, 1⟩, w) := by
  simp [handleCallback, hauth]

/-- C4 witness: a callback with no `Authorization` header at all is
rejected and the world is untouched. -/
theorem callback_unauthorized_rejected_witness :
    verifyOnlyOfficeJwt (fun _ _ => [])
      ((none : Option Str).getD []) [] = false ∧
    handleCallback (fun _ _ => []) (some []) (fun _ => none) (fun _ _ => []) 0
      ⟨none, ⟨some 2, none, none⟩⟩ ⟨[], []⟩ = (⟨403, 1⟩, ⟨[], []⟩) :=
  ⟨by decide,
   callback_unauthorized_rejected (fun _ _ => []) [] (fun _ => none)
     (fun _ _ => []) 0 ⟨none, ⟨some 2, none, none⟩⟩ ⟨[], []⟩ (by decide)⟩

/-- C8: a callback whose status is neither 2 ("must save") nor 6 ("must
force save") leaves the world — hence every record's `version` and
`docxPath`/`docxUrl` and every stored blob — unchanged, and still
receives the success acknowledgement `{error: 0}`. -/
theorem callback_ignored_status
    (hmac : List Nat → List Nat → List Nat) (secret : Option (List Nat))
    (fetchFn : Str → Option (List Nat)) (signUrl : Str → Nat → Str)
    (now : Nat) (req : CallbackRequest) (w : World)
    (hauth : ∀ s, secret = some s →
      verifyOnlyOfficeJwt hmac (req.authorization.getD []) s = true)
    (h2 : req.body.status ≠ some 2) (h6 : req.body.status ≠ some 6) :
    handleCallback hmac secret fetchFn signUrl now req w = (⟨200, 0⟩, w) := by
  have hbody : callbackSave fetchFn signUrl now req.body w = (⟨200, 0⟩, w) := by
    unfold callbackSave
    rw [if_neg]
    rintro (h | h)
    · exact h2 h
    · exact h6 h
  cases secret with
  | none => simpa [handleCallback] using hbody
  | some s => simp [handleCallback, hauth s rfl, hbody]

/-- C8 witness: a status-4 (closed-no-changes) callback with no secret
configured is acknowledged and changes nothing. -/
theorem callback_ignored_status_witness :
    (⟨none, ⟨some 4, none, none⟩⟩ : CallbackRequest).body.status ≠ some 2 ∧
    handleCallback (fun _ _ => []) none (fun _ => none) (fun _ _ => []) 0
      ⟨none, ⟨some 4, none, none⟩⟩ ⟨[], []⟩ = (⟨200, 0⟩, ⟨[], []⟩) :=
  ⟨by decide,
   callback_ignored_status (fun _ _ => []) none (fun _ => none) (fun _ _ => [])
     0 ⟨none, ⟨some 4, none, none⟩⟩ ⟨[], []⟩ (fun s hs => nomatch hs)
     (by decide) (by decide)⟩

/-- C10: the callback authentication decision depends only on the
`Authorization` header and the configured secret, never on the request
body: two callback requests with identical headers are either both
rejected as unauthorized (status 403) or both pass the gate, whatever
their bodies, times, or starting worlds; and a token validly signed over
any payload whatsoever passes the auth gate for a callback body chosen
freely by the sender. -/
theorem callback_auth_ignores_body
    (hmac : List Nat → List Nat → List Nat) (s : List Nat)
    (fetchFn : Str → Option (List Nat)) (signUrl : Str → Nat → Str) :
    (∀ now1 now2 (r1 r2 : CallbackRequest) (w1 w2 : World),
      r1.authorization = r2.authorization →
      ((handleCallback hmac (some s) fetchFn signUrl now1 r1 w1).1.status = 403 ↔
       (handleCallback hmac (some s) fetchFn signUrl now2 r2 w2).1.status = 403)) ∧
    (∀ (payloadBytes : List Nat) (body : CallbackBody) (now : Nat) (w : World),
      payloadBytes ≠ [] → (∀ d, hmac s d ≠ []) →
      (handleCallback hmac (some s) fetchFn signUrl now
        ⟨some (bearerText ++ signJwt hmac payloadBytes s), body⟩ w).1.status ≠ 403) := by
  constructor
  · intro now1 now2 r1 r2 w1 w2 hA
    cases hv : verifyOnlyOfficeJwt hmac (r1.authorization.getD []) s with
    | false =>
      have hv2 : verifyOnlyOfficeJwt hmac (r2.authorization.getD []) s = false := by
        rw [← hA]; exact hv
      simp [handleCallback, hv, hv2]
    | true =>
      have hv2 : verifyOnlyOfficeJwt hmac (r2.authorization.getD []) s = true := by
        rw [← hA]; exact hv
      simp only [handleCallback, hv, hv2, if_true]
      constructor
      · intro h; exact absurd h (callbackSave_status_ne_403 _ _ _ _ _)
      · intro h; exact absurd h (callbackSave_status_ne_403 _ _ _ _ _)
  · intro payloadBytes body now w hp hh
    have hv : verifyOnlyOfficeJwt hmac
        ((some (bearerText ++ signJwt hmac payloadBytes s) : Option Str).getD [])
          s = true := verify_sign_aux hmac payloadBytes s hp hh
    simp only [handleCallback, hv, if_true]
    exact callbackSave_status_ne_403 _ _ _ _ _

/-- C10 witness: two callbacks with the same (absent) `Authorization`
header but different bodies, times and worlds receive the same auth
decision. -/
theorem callback_auth_ignores_body_witness :
    (none : Option Str) = none ∧
    ((handleCallback (fun _ _ => []) (some []) (fun _ => none) (fun _ _ => []) 0
        ⟨none, ⟨some 2, none, none⟩⟩ ⟨[], []⟩).1.status = 403 ↔
     (handleCallback (fun _ _ => []) (some []) (fun _ => none) (fun _ _ => []) 1
        ⟨none, ⟨some 6, some (("u").toList), some (("k").toList)⟩⟩
        ⟨[], []⟩).1.status = 403) :=
  ⟨rfl,
   (callback_auth_ignores_body (fun _ _ => []) [] (fun _ => none)
     (fun _ _ => [])).1 0 1 ⟨none, ⟨some 2, none, none⟩⟩
     ⟨none, ⟨some 6, some (("u").toList), some (("k").toList)⟩⟩
     ⟨[], []⟩ ⟨[], []⟩ rfl⟩

/-! ## Version behaviour of the save callback (C2) -/

/-- The `version` field of an optional record. -/
def docVersion : Option DocRecord → Option Nat
  | some r => r.version
  | none => none

/-- The callback body preserves the `version` field of every record that
exists: the only record write it performs is a merge naming
`docxPath`/`docxUrl`/`updatedAt`. -/
theorem callbackSave_preserves_version (fetchFn : Str → Option (List Nat))
    (signUrl : Str → Nat → Str) (now : Nat) (body : CallbackBody) (w : World)
    (d : Str) (r : DocRecord) (h : lookupRec w.records d = some r) :
    ∃ r', lookupRec (callbackSave fetchFn signUrl now body w).2.records d =
      some r' ∧ r'.version = r.version := by
  unfold callbackSave
  by_cases hs : body.status = some 2 ∨ body.status = some 6
  · rw [if_pos hs]
    by_cases ht : (truthyStr body.url && truthyStr body.key) = true
    · rw [if_pos ht]
      cases hf : fetchFn (body.url.getD []) with
      | none =>
        simp only [hf]
        exact ⟨r, h, rfl⟩
      | some buf =>
        simp only [hf, lookupRec_upsertRec]
        by_cases hd : (splitOnChar ':' (body.key.getD [])).getD 0 [] = d
        · rw [if_pos hd, hd, h]
          exact ⟨_, rfl, rfl⟩
        · rw [if_neg hd]
          exact ⟨r, h, rfl⟩
    · rw [if_neg ht]; exact ⟨r, h, rfl⟩
  · rw [if_neg hs]; exact ⟨r, h, rfl⟩

/-- One full callback request (auth gate included) preserves the
`version` field of every existing record. -/
theorem handleCallback_preserves_version
    (hmac : List Nat → List Nat → List Nat) (secret : Option (List Nat))
    (fetchFn : Str → Option (List Nat)) (signUrl : Str → Nat → Str)
    (now : Nat) (req : CallbackRequest) (w : World) (d : Str) (r : DocRecord)
    (h : lookupRec w.records d = some r) :
    ∃ r', lookupRec (handleCallback hmac secret fetchFn signUrl now req w).2.records d =
      some r' ∧ r'.version = r.version := by
  cases secret with
  | none =>
    simpa [handleCallback] using
      callbackSave_preserves_version fetchFn signUrl now req.body w d r h
  | some s =>
    cases hv : verifyOnlyOfficeJwt hmac (req.authorization.getD []) s with
    | false => simp only [handleCallback, hv]; exact ⟨r, h, rfl⟩
    | true =>
      simp only [handleCallback, hv, if_true]
      exact callbackSave_preserves_version fetchFn signUrl now req.body w d r h

/-- C2 amended: the record store holds no version counter for the save
callback to advance — no code in the repository writes a `version` field
— so after any sequence of callbacks (saves applied in any order, with
any outcomes) an existing record's `version` field is exactly its
initial value, not the initial value plus the number of applied saves. -/
theorem runCallbacks_version_unchanged
    (hmac : List Nat → List Nat → List Nat) (secret : Option (List Nat))
    (fetchFn : Str → Option (List Nat)) (signUrl : Str → Nat → Str)
    (reqs : List (Nat × CallbackRequest)) (d : Str) (r : DocRecord) (w : World)
    (h : lookupRec w.records d = some r) :
    ∃ r', lookupRec (runCallbacks hmac secret fetchFn signUrl reqs w).records d =
      some r' ∧ r'.version = r.version := by
  induction reqs generalizing w r with
  | nil => exact ⟨r, h, rfl⟩
  | cons pr rest ih =>
    obtain ⟨now, req⟩ := pr
    obtain ⟨r1, h1, hv1⟩ :=
      handleCallback_preserves_version hmac secret fetchFn signUrl now req w d r h
    obtain ⟨r', h', hv'⟩ := ih r1 _ h1
    exact ⟨r', by simpa [runCallbacks] using h', hv'.trans hv1⟩

/-! ## Concrete fixtures for counterexamples and witnesses -/

def hmacZ : List Nat → List Nat → List Nat := fun _ _ => []

def dStr : Str := ("d").toList

/-- A record at version 3 (the spec's postulated field), owned by `o`. -/
def cexRecord : DocRecord :=
  ⟨("o").toList, none, some (("p").toList), some (("u0").toList), none, 0, some 3⟩

def cexWorld : World := ⟨[(dStr, cexRecord)], []⟩

def cexFetch : Str → Option (List Nat) := fun _ => some [9, 9]

def fetchNone : Str → Option (List Nat) := fun _ => none

def cexSign : Str → Nat → Str := fun _ _ => ("signed").toList

/-- A must-save callback for document `d` with a download URL. -/
def cexSaveReq : CallbackRequest :=
  ⟨none, ⟨some 2, some (("u").toList), some (("d:123").toList)⟩⟩

def emptyWorld : World := ⟨[], []⟩

/-- C2 counterexample: one successfully applied save callback (success
acknowledgement, edited bytes stored at the document's path) leaves the
record's `version` at its initial value 3 instead of 3 + 1: the handler
performs no version increment and the store no atomic counter update. -/
theorem callback_no_version_increment_cex :
    (handleCallback hmacZ none cexFetch cexSign 5 cexSaveReq cexWorld).1 = ⟨200, 0⟩ ∧
    lookupBlob (handleCallback hmacZ none cexFetch cexSign 5 cexSaveReq cexWorld).2.blobs
      (latestPath dStr) = some [9, 9] ∧
    docVersion (lookupRec
      (handleCallback hmacZ none cexFetch cexSign 5 cexSaveReq cexWorld).2.records dStr) =
      some 3 ∧
    (some 3 : Option Nat) ≠ some (3 + 1) := by decide

/-- C2 witness: the amended theorem at a concrete two-callback run. -/
theorem runCallbacks_version_unchanged_witness :
    lookupRec cexWorld.records dStr = some cexRecord ∧
    ∃ r', lookupRec (runCallbacks hmacZ none cexFetch cexSign
        [(5, cexSaveReq), (6, cexSaveReq)] cexWorld).records dStr = some r' ∧
      r'.version = cexRecord.version :=
  ⟨rfl, runCallbacks_version_unchanged hmacZ none cexFetch cexSign
    [(5, cexSaveReq), (6, cexSaveReq)] dStr cexRecord cexWorld rfl⟩

/-- C3 counterexample: an actionable must-save callback whose download
fails is answered with HTTP 500 `{error: 1}`, not with the success
acknowledgement `{error: 0}`: the handler does the download/persistence
work first and its response reflects that work's failure. -/
theorem callback_ack_after_work_cex :
    handleCallback hmacZ none fetchNone cexSign 5 cexSaveReq emptyWorld =
      (⟨500, 1⟩, emptyWorld) ∧
    (⟨500, 1⟩ : HttpResp) ≠ ⟨200, 0⟩ := by decide

/-- C3 amended: the callback handler performs the download and
persistence work before responding; for an authorized actionable
callback it answers 500 `{error: 1}` and leaves all state unchanged when
the download fails, and answers `{error: 0}` only after the edited bytes
have been written to the document's path. -/
theorem callback_ack_reflects_persistence
    (hmac : List Nat → List Nat → List Nat) (secret : Option (List Nat))
    (fetchFn : Str → Option (List Nat)) (signUrl : Str → Nat → Str)
    (now : Nat) (req : CallbackRequest) (w : World)
    (hauth : ∀ s, secret = some s →
      verifyOnlyOfficeJwt hmac (req.authorization.getD []) s = true)
    (hst : req.body.status = some 2 ∨ req.body.status = some 6)
    (hu : truthyStr req.body.url = true) (hk : truthyStr req.body.key = true) :
    (fetchFn (req.body.url.getD []) = none →
      handleCallback hmac secret fetchFn signUrl now req w = (⟨500, 1⟩, w)) ∧
    (∀ buf, fetchFn (req.body.url.getD []) = some buf →
      (handleCallback hmac secret fetchFn signUrl now req w).1 = ⟨200, 0⟩ ∧
      lookupBlob (handleCallback hmac secret fetchFn signUrl now req w).2.blobs
        (latestPath ((splitOnChar ':' (req.body.key.getD [])).getD 0 [])) =
        some buf) := by
  have hgate : handleCallback hmac secret fetchFn signUrl now req w =
      callbackSave fetchFn signUrl now req.body w := by
    cases secret with
    | none => simp [handleCallback]
    | some s => simp [handleCallback, hauth s rfl]
  have hcond : (truthyStr req.body.url && truthyStr req.body.key) = true := by
    rw [hu, hk]; rfl
  constructor
  · intro hf
    rw [hgate]
    unfold callbackSave
    rw [if_pos hst, if_pos hcond]
    simp only [hf]
  · intro buf hf
    rw [hgate]
    unfold callbackSave
    rw [if_pos hst, if_pos hcond]
    simp only [hf]
    exact ⟨trivial, lookupBlob_upsertBlob_self _ _ _⟩

/-- C3 amended witness: the failing-download side at the concrete
must-save callback. -/
theorem callback_ack_reflects_persistence_witness :
    cexSaveReq.body.status = some 2 ∧
    ((fetchNone (cexSaveReq.body.url.getD []) = none →
      handleCallback hmacZ none fetchNone cexSign 5 cexSaveReq emptyWorld =
        (⟨500, 1⟩, emptyWorld)) ∧
    (∀ buf, fetchNone (cexSaveReq.body.url.getD []) = some buf →
      (handleCallback hmacZ none fetchNone cexSign 5 cexSaveReq emptyWorld).1 =
        ⟨200, 0⟩ ∧
      lookupBlob (handleCallback hmacZ none fetchNone cexSign 5 cexSaveReq
          emptyWorld).2.blobs
        (latestPath ((splitOnChar ':' (cexSaveReq.body.key.getD [])).getD 0 [])) =
        some buf)) :=
  ⟨rfl, callback_ack_reflects_persistence hmacZ none fetchNone cexSign 5
    cexSaveReq emptyWorld (fun _ hs => nomatch hs) (Or.inl rfl) rfl rfl⟩

/-! ## Session key and config endpoint (C1, C5) -/

/-- The session key of a config response, when one was produced. -/
def configKeyOf : ConfigResult → Option Str
  | ConfigResult.ok cfg _ => some cfg.key
  | ConfigResult.badRequest => none

def serZ : OOConfig → List Nat := fun _ => []

def pubStr : Str := ("http://backend").toList

/-- The same config request for document `d` (no save in between). -/
def cfgReq : ConfigRequest :=
  ⟨some dStr, some (("file").toList), some (("docx").toList), none, none, none⟩

/-- C1 counterexample: two config requests for the same document with no
intervening save, handled at wall-clock times 1000 and 2000, produce
different session keys: the key is `` `${docId}:${Date.now()}` ``, a
function of the request time, not of any persisted version. -/
theorem config_key_time_dependent_cex :
    configKeyOf (buildConfig serZ hmacZ none pubStr cfgReq 1000) ≠
      configKeyOf (buildConfig serZ hmacZ none pubStr cfgReq 2000) := by decide

/-- A config request with its three required fields present yields a
config whose key is `docId ++ ":" ++ Date.now()`. -/
theorem buildConfig_key_aux (serialize : OOConfig → List Nat)
    (hmac : List Nat → List Nat → List Nat) (secret : Option (List Nat))
    (pub : Str) (req : ConfigRequest) (now : Nat)
    (hd : truthyStr req.docId = true) (hu : truthyStr req.fileUrl = true)
    (ht : truthyStr req.fileType = true) :
    ∃ cfg tok,
      buildConfig serialize hmac secret pub req now = ConfigResult.ok cfg tok ∧
      cfg.key = req.docId.getD [] ++ ':' :: natToStr now := by
  unfold buildConfig
  rw [hd, hu, ht]
  cases secret with
  | none => exact ⟨_, _, rfl, rfl⟩
  | some s => exact ⟨_, _, rfl, rfl⟩

/-- C1 amended: the session key minted by `POST /onlyoffice/config` is a
deterministic function of the request's `docId` and the wall-clock time
`Date.now()` at handling — the endpoint reads no document record and no
version — so two requests for the same document agree on the key exactly
when they are handled at the same millisecond. -/
theorem config_key_wallclock (serialize : OOConfig → List Nat)
    (hmac : List Nat → List Nat → List Nat) (secret : Option (List Nat))
    (pub : Str) (req : ConfigRequest) (now : Nat)
    (hd : truthyStr req.docId = true) (hu : truthyStr req.fileUrl = true)
    (ht : truthyStr req.fileType = true) :
    configKeyOf (buildConfig serialize hmac secret pub req now) =
      some (req.docId.getD [] ++ ':' :: natToStr now) := by
  obtain ⟨cfg, tok, heq, hkey⟩ :=
    buildConfig_key_aux serialize hmac secret pub req now hd hu ht
  rw [heq]
  simp [configKeyOf, hkey]

/-- C1 amended witness: the key at a concrete request and time. -/
theorem config_key_wallclock_witness :
    truthyStr cfgReq.docId = true ∧
    configKeyOf (buildConfig serZ hmacZ none pubStr cfgReq 1000) =
      some (cfgReq.docId.getD [] ++ ':' :: natToStr 1000) :=
  ⟨rfl, config_key_wallclock serZ hmacZ none pubStr cfgReq 1000 rfl rfl rfl⟩

/-- C5 counterexample: `POST /onlyoffice/config` consults no document
record at all (it has no record-store input): for a request naming a
document that exists in no store, but carrying `fileUrl` and `fileType`,
it returns a session config instead of failing with `NotFoundError`. -/
theorem config_ignores_record_cex :
    configKeyOf (buildConfig serZ hmacZ none pubStr cfgReq 7) =
      some (dStr ++ ':' :: natToStr 7) ∧
    buildConfig serZ hmacZ none pubStr cfgReq 7 ≠ ConfigResult.badRequest := by
  decide

/-- C5 amended: the record read and the two failure modes live in the
frontend page, not in the backend endpoint: `OnlyOfficePage` reads the
DocumentRecord, reports the not-found error when no record exists and
the no-DOCX error when the record's `onlyoffice.docxUrl` is unset, and
otherwise obtains a session config (whose key embeds the request time);
the backend endpoint itself only rejects requests missing
`docId`/`fileUrl`/`fileType` with a generic 400. -/
theorem page_build_config (serialize : OOConfig → List Nat)
    (hmac : List Nat → List Nat → List Nat) (secret : Option (List Nat))
    (pub : Str) (store : List (Str × DocRecord)) (docId uid email : Str)
    (now : Nat) (hd : docId ≠ []) :
    (lookupRec store docId = none →
      onlyOfficePageLoad serialize hmac secret pub store docId uid email now =
        PageOutcome.notFound) ∧
    (∀ r, lookupRec store docId = some r → r.ownerUid = uid →
      truthyStr r.docxUrl = false →
      onlyOfficePageLoad serialize hmac secret pub store docId uid email now =
        PageOutcome.noDocx) ∧
    (∀ r, lookupRec store docId = some r → r.ownerUid = uid →
      truthyStr r.docxUrl = true →
      ∃ cfg tok,
        onlyOfficePageLoad serialize hmac secret pub store docId uid email now =
          PageOutcome.editor cfg tok ∧ cfg.key = docId ++ ':' :: natToStr now) ∧
    (∀ req : ConfigRequest,
      truthyStr req.docId = false ∨ truthyStr req.fileUrl = false ∨
        truthyStr req.fileType = false →
      buildConfig serialize hmac secret pub req now = ConfigResult.badRequest) := by
  refine ⟨?_, ?_, ?_, ?_⟩
  · intro hnone
    unfold onlyOfficePageLoad
    rw [hnone]
  · intro r hr hown hurl
    unfold onlyOfficePageLoad
    rw [hr]
    simp [hown, hurl]
  · intro r hr hown hurl
    have hdocid : truthyStr (some docId) = true := by
      obtain ⟨c, cs, hc⟩ := List.exists_cons_of_ne_nil hd
      rw [hc]; rfl
    obtain ⟨cfg, tok, heq, hkey⟩ := buildConfig_key_aux serialize hmac secret pub
      ⟨some docId, r.docxUrl, some (("docx").toList),
       some (if truthyStr r.title then r.title.getD []
             else ("Document").toList),
       some uid,
       some (if email ≠ [] then email else ("User").toList)⟩ now
      hdocid hurl rfl
    refine ⟨cfg, tok, ?_, hkey⟩
    unfold onlyOfficePageLoad
    simp only [hr]
    rw [if_neg (show ¬ r.ownerUid ≠ uid from fun hne => hne hown),
      if_neg (show ¬ truthyStr r.docxUrl = false from by
        rw [hurl]; exact fun h => nomatch h)]
    simp only [heq]
  · intro req hmiss
    unfold buildConfig
    rw [if_neg]
    intro hcond
    rcases hmiss with h | h | h <;> rw [h] at hcond <;> simp at hcond

/-- C5 amended witness: a store without the document yields the
not-found outcome (and the other conjuncts at the same instance). -/
theorem page_build_config_witness :
    (("x") : String).toList ≠ [] ∧
    ((lookupRec [] (("x").toList) = none →
      onlyOfficePageLoad serZ hmacZ none pubStr [] (("x").toList) dStr dStr 3 =
        PageOutcome.notFound) ∧
    (∀ r, lookupRec [] (("x").toList) = some r → r.ownerUid = dStr →
      truthyStr r.docxUrl = false →
      onlyOfficePageLoad serZ hmacZ none pubStr [] (("x").toList) dStr dStr 3 =
        PageOutcome.noDocx) ∧
    (∀ r, lookupRec [] (("x").toList) = some r → r.ownerUid = dStr →
      truthyStr r.docxUrl = true →
      ∃ cfg tok,
        onlyOfficePageLoad serZ hmacZ none pubStr [] (("x").toList) dStr dStr 3 =
          PageOutcome.editor cfg tok ∧
          cfg.key = ("x").toList ++ ':' :: natToStr 3) ∧
    (∀ req : ConfigRequest,
      truthyStr req.docId = false ∨ truthyStr req.fileUrl = false ∨
        truthyStr req.fileType = false →
      buildConfig serZ hmacZ none pubStr req 3 = ConfigResult.badRequest)) :=
  ⟨by decide,
   page_build_config serZ hmacZ none pubStr [] (("x").toList) dStr dStr 3
     (by decide)⟩

/-! ## Conversion poller (C6, C7) -/

/-- A poll response on which the loop continues: transport ok, no truthy
error code, no `endConvert`. -/
def contOk (r : ConvResp) : Prop :=
  r.ok = true ∧ truthyInt r.errCode = false ∧ r.endConvert = false

/-- If every response within the budget makes the loop continue, the loop
exhausts exactly its budget. -/
theorem pollAux_exhausted (rs : Nat → ConvResp) :
    ∀ fuel i, (∀ j, j < fuel → contOk (rs (i + j))) →
    pollAux rs i fuel = (PollExit.exhausted, fuel) := by
  intro fuel
  induction fuel with
  | zero => intro i _; rfl
  | succ n ih =>
    intro i h
    obtain ⟨hok, herr, hend⟩ := h 0 (Nat.succ_pos n)
    rw [Nat.add_zero] at hok herr hend
    have hrest : pollAux rs (i + 1) n = (PollExit.exhausted, n) := by
      apply ih
      intro j hj
      have := h (j + 1) (Nat.succ_lt_succ hj)
      rwa [show i + (j + 1) = i + 1 + j by omega] at this
    unfold pollAux
    rw [if_neg (show ¬ (rs i).ok = false from by rw [hok]; exact fun hc => nomatch hc),
      if_neg (show ¬ truthyInt (rs i).errCode = true from by
        rw [herr]; exact fun hc => nomatch hc),
      if_neg (show ¬ (rs i).endConvert = true from by
        rw [hend]; exact fun hc => nomatch hc)]
    simp only [hrest]

/-- If the first `k` responses make the loop continue and the `k`-th
carries a nonzero error code, the loop exits with that code after `k + 1`
polls. -/
theorem pollAux_convError (rs : Nat → ConvResp) (e : Int) :
    ∀ k fuel i, k < fuel → (∀ j, j < k → contOk (rs (i + j))) →
    (rs (i + k)).ok = true → (rs (i + k)).errCode = some e → e ≠ 0 →
    pollAux rs i fuel = (PollExit.convError e, k + 1) := by
  intro k
  induction k with
  | zero =>
    intro fuel i hk _ hok herr hne
    obtain ⟨n, rfl⟩ : ∃ n, fuel = n + 1 := ⟨fuel - 1, by omega⟩
    rw [Nat.add_zero] at hok herr
    have htr : truthyInt (rs i).errCode = true := by
      rw [herr]
      simp [truthyInt, hne]
    unfold pollAux
    rw [if_neg (show ¬ (rs i).ok = false from by rw [hok]; exact fun hc => nomatch hc),
      if_pos htr, herr]
    rfl
  | succ m ih =>
    intro fuel i hk hpre hok herr hne
    obtain ⟨n, rfl⟩ : ∃ n, fuel = n + 1 := ⟨fuel - 1, by omega⟩
    obtain ⟨h0ok, h0err, h0end⟩ := hpre 0 (Nat.succ_pos m)
    rw [Nat.add_zero] at h0ok h0err h0end
    have hrest : pollAux rs (i + 1) n = (PollExit.convError e, m + 1) := by
      apply ih n (i + 1) (by omega)
      · intro j hj
        have := hpre (j + 1) (Nat.succ_lt_succ hj)
        rwa [show i + (j + 1) = i + 1 + j by omega] at this
      · rwa [show i + 1 + m = i + (m + 1) by omega]
      · rwa [show i + 1 + m = i + (m + 1) by omega]
      · exact hne
    unfold pollAux
    rw [if_neg (show ¬ (rs i).ok = false from by rw [h0ok]; exact fun hc => nomatch hc),
      if_neg (show ¬ truthyInt (rs i).errCode = true from by
        rw [h0err]; exact fun hc => nomatch hc),
      if_neg (show ¬ (rs i).endConvert = true from by
        rw [h0end]; exact fun hc => nomatch hc)]
    simp only [hrest]

/-- C6: when every poll response is HTTP-ok, reports no error and never
reports `endConvert`, the conversion endpoint performs exactly
`attemptBudget` (40) polls — not fewer — then returns the 504 timeout,
leaving the blob store and record store untouched. -/
theorem conversion_timeout_after_budget (rs : Nat → ConvResp)
    (fetchFn : Str → Option (List Nat)) (signUrl : Str → Nat → Str)
    (ou : Str) (docId pdfUrl : Option Str) (now : Nat) (w : World)
    (hd : truthyStr docId = true) (hp : truthyStr pdfUrl = true)
    (hall : ∀ j, j < attemptBudget → contOk (rs j)) :
    pollAux rs 0 attemptBudget = (PollExit.exhausted, attemptBudget) ∧
    convertPdfToDocx rs fetchFn signUrl (some ou) docId pdfUrl now w =
      (ConvResult.timeout, w) := by
  have hpoll := pollAux_exhausted rs attemptBudget 0
    (fun j hj => by simpa using hall j hj)
  refine ⟨hpoll, ?_⟩
  unfold convertPdfToDocx
  rw [show (truthyStr docId && truthyStr pdfUrl) = true from by rw [hd, hp]; rfl]
  simp only [if_true, hpoll]

/-- C6 witness: a remote that always answers HTTP-ok without error or
completion drives the endpoint through all 40 polls to the timeout. -/
theorem conversion_timeout_after_budget_witness :
    truthyStr (some dStr) = true ∧
    pollAux (fun _ => ⟨true, 200, none, false, none⟩) 0 attemptBudget =
      (PollExit.exhausted, attemptBudget) ∧
    convertPdfToDocx (fun _ => ⟨true, 200, none, false, none⟩) fetchNone cexSign
      (some (("x").toList)) (some dStr) (some dStr) 0 emptyWorld =
      (ConvResult.timeout, emptyWorld) :=
  ⟨rfl,
   conversion_timeout_after_budget (fun _ => ⟨true, 200, none, false, none⟩)
     fetchNone cexSign (("x").toList) (some dStr) (some dStr) 0 emptyWorld rfl
     rfl (fun _ _ => ⟨rfl, rfl, rfl⟩)⟩

/-- C7: a poll response carrying a (truthy, i.e. nonzero) numeric error
code — such as `{error: 4}` — makes the conversion endpoint return the
conversion-error result carrying that code, with no blob-store write and
no record mutation. -/
theorem conversion_error_surfaced (rs : Nat → ConvResp)
    (fetchFn : Str → Option (List Nat)) (signUrl : Str → Nat → Str)
    (ou : Str) (docId pdfUrl : Option Str) (now : Nat) (w : World)
    (k : Nat) (e : Int)
    (hd : truthyStr docId = true) (hp : truthyStr pdfUrl = true)
    (hk : k < attemptBudget) (hpre : ∀ j, j < k → contOk (rs j))
    (hok : (rs k).ok = true) (herr : (rs k).errCode = some e) (hne : e ≠ 0) :
    convertPdfToDocx rs fetchFn signUrl (some ou) docId pdfUrl now w =
      (ConvResult.convError e, w) := by
  have hpoll := pollAux_convError rs e k attemptBudget 0 hk
    (fun j hj => by simpa using hpre j hj) (by simpa using hok)
    (by simpa using herr) hne
  unfold convertPdfToDocx
  rw [show (truthyStr docId && truthyStr pdfUrl) = true from by rw [hd, hp]; rfl]
  simp only [if_true, hpoll]

/-- C7 witness: `{error: 4}` on the third poll surfaces as the
conversion-error result with code 4 and no state change. -/
theorem conversion_error_surfaced_witness :
    (2 : Nat) < attemptBudget ∧
    convertPdfToDocx
      (fun i => if i = 2 then ⟨true, 200, some 4, false, none⟩
                else ⟨true, 200, none, false, none⟩)
      fetchNone cexSign (some (("x").toList)) (some dStr) (some dStr) 0
      emptyWorld = (ConvResult.convError 4, emptyWorld) :=
  ⟨by decide,
   conversion_error_surfaced
     (fun i => if i = 2 then ⟨true, 200, some 4, false, none⟩
               else ⟨true, 200, none, false, none⟩)
     fetchNone cexSign (("x").toList) (some dStr) (some dStr) 0 emptyWorld 2 4
     rfl rfl (by decide)
     (fun j hj => by
       match j with
       | 0 => exact ⟨rfl, rfl, rfl⟩
       | 1 => exact ⟨rfl, rfl, rfl⟩
       | n + 2 => omega)
     (by decide) (by decide) (by decide)⟩

end PdfEditor
